import Mathlib

/-!
# Verification of the vendor-discovery agent

Shallow embedding of the vendor-discovery repository
(`search_engine.py`, `vendor_extractor.py`, `llm_reasoner.py`,
`vendor_finder.py`) in Lean 4, together with proofs and refutations of
the specification claims about it.

Modelling conventions:
* Python floats are modelled as `ℚ`; every score in the program is a sum
  of multiples of 1/10 clamped and rounded, so the arithmetic is exact.
* Python strings are Lean `String`s; `str.lower()` is modelled by an
  ASCII lowercasing (all keyword tables in the source are ASCII),
  and the `in` substring test by an explicit character-list scan.
* Network / LLM / regex-engine effects are oracle parameters: each
  external call site reads its answer from an environment record, so
  theorems quantify over every possible sequence of external responses.
* Fallible paths give `Except`: the uncaught exception paths of
  `find_vendors` — a decide reply with no usable `action` lookup
  (`KeyError` at `decision["action"]`, or `AttributeError` at `.get` on
  a non-dict reply) and an ill-typed re-rank reply (`AttributeError` at
  `rerank.get` on a non-dict, `TypeError` at the `0 <= i < n` comparison
  on a non-numeric id, or `TypeError` at `ranked_vendors[i]` on a float
  id) — are modelled as `.error ()`.
-/

/-! ## String helpers (Python `str.lower` and the `in` operator) -/

/-- `needle` is a prefix of `hay` (character lists). -/
def charListStarts : List Char → List Char → Bool
  | [], _ => true
  | _ :: _, [] => false
  | a :: as, b :: bs => a == b && charListStarts as bs

/-- `needle` occurs as a contiguous sublist of `hay`. -/
def charListHasSub (needle : List Char) : List Char → Bool
  | [] => needle.isEmpty
  | c :: rest => charListStarts needle (c :: rest) || charListHasSub needle rest

/-- Python's `needle in hay` on strings. -/
def strContains (hay needle : String) : Bool :=
  charListHasSub needle.toList hay.toList

/-- Python's `str.lower()` (ASCII range, which covers every constant in
the sources). -/
def lowerStr (s : String) : String :=
  String.mk (s.toList.map Char.toLower)

/-- Python's `str.title()` on space-separated ASCII words (which covers
the gazetteer entries it is applied to): the first character of each
word is uppercased, the rest lowercased. -/
def titleCaseChars : Bool → List Char → List Char
  | _, [] => []
  | atStart, c :: cs =>
    if c = ' ' then c :: titleCaseChars true cs
    else (if atStart then c.toUpper else c.toLower) :: titleCaseChars false cs

def titleCase (s : String) : String :=
  String.mk (titleCaseChars true s.toList)

/-- Python truthiness of an `Optional[str]` value (`None` and `""` are
falsy). -/
def optStrTruthy : Option String → Bool
  | none => false
  | some s => s ≠ ""

/-! ## `search_engine.py` — the deterministic core of `search_vendors`

`search_google` / `search_bing` shape every provider item into a dict
with keys `title`, `link`, `snippet`, `source`, `query_used`; `SearchHit`
is that dict.  The aggregation loop (lines 160-200) is a pure function
of the concatenated provider results, embedded below as
`search_vendors`. -/

structure SearchHit where
  title : String
  link : String
  snippet : String
  source : String
  query_used : String
  deriving DecidableEq, Repr

/-- A surviving hit together with its `relevance_score` field. -/
structure ScoredHit where
  hit : SearchHit
  relevance_score : ℚ
  deriving DecidableEq, Repr

/-- Python's `round(q, 2)`; all values it receives here are exact
multiples of 1/10, on which half-even and half-up rounding agree (and
both are the identity). -/
def round2 (q : ℚ) : ℚ := ((round (100 * q) : ℤ) : ℚ) / 100

/-- Lines 180-194: the lightweight relevance signal computed for each
hit surviving deduplication. -/
def relevance_score (service location platform : String) (h : SearchHit) : ℚ :=
  let title := lowerStr h.title
  let snippet := lowerStr h.snippet
  let s : ℚ :=
    (if strContains title (lowerStr service) then 3/10 else 0)
    + (if strContains snippet (lowerStr location) then 3/10 else 0)
    + (if strContains snippet "whatsapp" || strContains snippet "wa.me" then 2/10 else 0)
    + (if strContains (lowerStr h.query_used) (lowerStr platform) then 2/10 else 0)
  round2 (min s 1)

/-- Lines 170-195: drop hits whose `link` is empty or already seen,
keeping the first occurrence of each URL. -/
def dedupHits (seen : List String) : List SearchHit → List SearchHit
  | [] => []
  | h :: rest =>
    if h.link = "" ∨ h.link ∈ seen then
      dedupHits seen rest
    else
      h :: dedupHits (h.link :: seen) rest

/-- `SearchEngine.search_vendors`, as a function of the concatenated raw
provider results (the network calls themselves are the oracle that
produced `raw`): deduplicate by URL, score, and stably sort by
`relevance_score` descending (Python's stable `sort` with
`reverse=True`). -/
def scoredLe (a b : ScoredHit) : Bool :=
  decide (b.relevance_score ≤ a.relevance_score)

def search_vendors (service location platform : String) (raw : List SearchHit) :
    List ScoredHit :=
  let uniq := dedupHits [] raw
  let scored := uniq.map (fun h => ⟨h, relevance_score service location platform h⟩)
  scored.mergeSort scoredLe

/-! ### Lemmas about the deduplication scan -/

theorem dedupHits_subset {seen : List String} {raw : List SearchHit} {h : SearchHit}
    (hm : h ∈ dedupHits seen raw) : h ∈ raw := by
  induction raw generalizing seen with
  | nil => simp [dedupHits] at hm
  | cons x rest ih =>
    rw [dedupHits] at hm
    split at hm
    · exact List.mem_cons_of_mem _ (ih hm)
    · rcases List.mem_cons.mp hm with h1 | h2
      · exact h1 ▸ List.mem_cons_self _ _
      · exact List.mem_cons_of_mem _ (ih h2)

theorem dedupHits_link {seen : List String} {raw : List SearchHit} {h : SearchHit}
    (hm : h ∈ dedupHits seen raw) : h.link ∉ seen ∧ h.link ≠ "" := by
  induction raw generalizing seen with
  | nil => simp [dedupHits] at hm
  | cons x rest ih =>
    rw [dedupHits] at hm
    split at hm
    · exact ih hm
    · rename_i hcond
      push_neg at hcond
      rcases List.mem_cons.mp hm with h1 | h2
      · subst h1
        exact ⟨hcond.2, hcond.1⟩
      · have := ih h2
        exact ⟨fun hs => this.1 (List.mem_cons_of_mem _ hs), this.2⟩

theorem dedupHits_countP {u : String} (hu : u ≠ "") :
    ∀ (raw : List SearchHit) (seen : List String),
      (dedupHits seen raw).countP (fun h => h.link == u)
        = if u ∈ seen then 0
          else if ∃ x ∈ raw, x.link = u then 1 else 0 := by
  intro raw
  induction raw with
  | nil => intro seen; simp [dedupHits]
  | cons x rest ih =>
    intro seen
    rw [dedupHits]
    split
    · rename_i hcond
      rw [ih seen]
      by_cases hs : u ∈ seen
      · simp [hs]
      · have hxu : x.link ≠ u := by
          rcases hcond with h1 | h2
          · exact fun h => hu (h ▸ h1)
          · exact fun h => hs (h ▸ h2)
        simp [hs, hxu]
    · rename_i hcond
      push_neg at hcond
      rw [List.countP_cons, ih (x.link :: seen)]
      by_cases hxu : x.link = u
      · subst hxu
        simp [hcond.2, List.mem_cons]
      · have hiff : (u ∈ x.link :: seen) ↔ u ∈ seen := by
          constructor
          · intro hin
            rcases List.mem_cons.mp hin with h1 | h1
            · exact absurd h1.symm hxu
            · exact h1
          · exact List.mem_cons_of_mem _
        rw [if_congr hiff rfl rfl]
        by_cases hs : u ∈ seen
        · simp [hs, hxu]
        · simp [hs, hxu]

theorem dedupHits_first {raw : List SearchHit} {seen : List String} {h : SearchHit}
    (hm : h ∈ dedupHits seen raw) :
    raw.find? (fun x => x.link == h.link) = some h := by
  induction raw generalizing seen with
  | nil => simp [dedupHits] at hm
  | cons x rest ih =>
    rw [dedupHits] at hm
    split at hm
    · rename_i hcond
      have hlink := dedupHits_link hm
      have hxh : (x.link == h.link) = false := by
        simp only [beq_eq_false_iff_ne, ne_eq]
        intro he
        rcases hcond with h1 | h2
        · exact hlink.2 (he ▸ h1)
        · exact hlink.1 (he ▸ h2)
      rw [List.find?_cons, hxh]
      exact ih hm
    · rcases List.mem_cons.mp hm with h1 | h2
      · subst h1
        rw [List.find?_cons]
        simp
      · have hlink := dedupHits_link h2
        have hxh : (x.link == h.link) = false := by
          simp only [beq_eq_false_iff_ne, ne_eq]
          intro he
          exact hlink.1 (he ▸ List.mem_cons_self _ _)
        rw [List.find?_cons, hxh]
        exact ih h2

/-! ### Lemmas about the relevance score -/

theorem scoredLe_trans (a b c : ScoredHit) :
    scoredLe a b → scoredLe b c → scoredLe a c := by
  simp only [scoredLe, decide_eq_true_eq]
  exact fun h1 h2 => le_trans h2 h1

theorem scoredLe_total (a b : ScoredHit) : scoredLe a b || scoredLe b a := by
  simp only [scoredLe, Bool.or_eq_true, decide_eq_true_eq]
  exact le_total b.relevance_score a.relevance_score

theorem round2_bounds {q : ℚ} (h0 : 0 ≤ q) (h1 : q ≤ 1) :
    0 ≤ round2 q ∧ round2 q ≤ 1 := by
  unfold round2
  rw [round_eq]
  have hl : (0 : ℤ) ≤ ⌊100 * q + 1 / 2⌋ := by
    apply Int.le_floor.mpr
    push_cast
    nlinarith
  have hr : ⌊100 * q + 1 / 2⌋ < 101 := by
    apply Int.floor_lt.mpr
    push_cast
    nlinarith
  constructor
  · apply div_nonneg _ (by norm_num)
    exact_mod_cast hl
  · rw [div_le_one (by norm_num)]
    have : ⌊100 * q + 1 / 2⌋ ≤ 100 := by omega
    exact_mod_cast this

theorem relevance_score_bounds (service location platform : String) (h : SearchHit) :
    0 ≤ relevance_score service location platform h
      ∧ relevance_score service location platform h ≤ 1 := by
  unfold relevance_score
  apply round2_bounds
  · apply le_min _ (by norm_num)
    split <;> split <;> split <;> split <;> norm_num
  · exact min_le_right _ _

theorem mem_search_vendors {service location platform : String} {raw : List SearchHit}
    {sh : ScoredHit} (hm : sh ∈ search_vendors service location platform raw) :
    sh.hit ∈ dedupHits [] raw
      ∧ sh.relevance_score = relevance_score service location platform sh.hit := by
  unfold search_vendors at hm
  rw [List.mem_mergeSort] at hm
  rcases List.mem_map.mp hm with ⟨h, hh, rfl⟩
  exact ⟨hh, rfl⟩

/-! ## Claim C4 — relevance scoring of surviving hits -/

/-- **C4.** For every hit surviving deduplication in `search_vendors`,
its relevance score is the sum of the four signal bonuses (+0.3 service
in title, +0.3 location in snippet, +0.2 WhatsApp marker in snippet,
+0.2 platform name in the producing query), clamped to [0,1] and rounded
to 2 decimals; every score lies in [0,1], and a hit with all four
signals scores exactly 1. -/
theorem C4_relevance_bounded (service location platform : String)
    (raw : List SearchHit) (sh : ScoredHit)
    (hm : sh ∈ search_vendors service location platform raw) :
    sh.relevance_score
      = round2 (min
          ((if strContains (lowerStr sh.hit.title) (lowerStr service) then (3:ℚ)/10 else 0)
            + (if strContains (lowerStr sh.hit.snippet) (lowerStr location) then (3:ℚ)/10 else 0)
            + (if strContains (lowerStr sh.hit.snippet) "whatsapp"
                  || strContains (lowerStr sh.hit.snippet) "wa.me" then (2:ℚ)/10 else 0)
            + (if strContains (lowerStr sh.hit.query_used) (lowerStr platform) then (2:ℚ)/10 else 0)) 1)
      ∧ 0 ≤ sh.relevance_score ∧ sh.relevance_score ≤ 1
      ∧ (strContains (lowerStr sh.hit.title) (lowerStr service) = true →
          strContains (lowerStr sh.hit.snippet) (lowerStr location) = true →
          (strContains (lowerStr sh.hit.snippet) "whatsapp"
            || strContains (lowerStr sh.hit.snippet) "wa.me") = true →
          strContains (lowerStr sh.hit.query_used) (lowerStr platform) = true →
          sh.relevance_score = 1) := by
  obtain ⟨-, heq⟩ := mem_search_vendors hm
  rw [heq]
  refine ⟨rfl, (relevance_score_bounds _ _ _ _).1, (relevance_score_bounds _ _ _ _).2,
    fun h1 h2 h3 h4 => ?_⟩
  simp only [relevance_score, h1, h2, h3, h4, if_true]
  norm_num [round2]

def c4_hit : SearchHit :=
  { title := "Cake shop", link := "http://c.example",
    snippet := "best in Lagos wa.me/2348", source := "google",
    query_used := "site:instagram.com cake" }

/-- Witness for C4: a concrete hit carrying all four signals is in the
output of `search_vendors` and scores exactly 1. -/
theorem C4_relevance_bounded_witness :
    (⟨c4_hit, 1⟩ : ScoredHit) ∈ search_vendors "cake" "Lagos" "instagram" [c4_hit]
      ∧ (⟨c4_hit, 1⟩ : ScoredHit).relevance_score = 1 := by
  have hm : (⟨c4_hit, 1⟩ : ScoredHit) ∈ search_vendors "cake" "Lagos" "instagram" [c4_hit] := by
    simp +decide [search_vendors, dedupHits, c4_hit, relevance_score, round2]
    norm_num
  exact ⟨hm, (C4_relevance_bounded "cake" "Lagos" "instagram" [c4_hit] _ hm).2.2.2
    (by decide) (by decide) (by decide) (by decide)⟩

/-! ## Claim C6 — URL deduplication in `search_vendors` -/

def c6_hit_first : SearchHit :=
  { title := "foo", link := "http://a.example", snippet := "bar",
    source := "google", query_used := "" }

def c6_hit_second : SearchHit :=
  { title := "foo", link := "http://b.example", snippet := "whatsapp",
    source := "google", query_used := "" }

/-- **C6, counterexample.** The claim says each surviving URL sits *at
the position of its first occurrence* in the provider/query iteration
order.  It does not: after deduplication the hits are re-sorted by
relevance score, so the first raw hit (score 0) ends up *after* a later
hit with a higher score.  Here the input order is
`[c6_hit_first, c6_hit_second]` but the output order is reversed. -/
theorem C6_dedup_counterexample :
    search_vendors "cake" "lagos" "instagram" [c6_hit_first, c6_hit_second]
        = [⟨c6_hit_second, 1/5⟩, ⟨c6_hit_first, 0⟩]
      ∧ c6_hit_first.link ≠ c6_hit_second.link
      ∧ c6_hit_first.link ≠ "" ∧ c6_hit_second.link ≠ "" := by
  refine ⟨?_, by decide, by decide, by decide⟩
  simp +decide [search_vendors, dedupHits, c6_hit_first, c6_hit_second,
    relevance_score, round2, List.mergeSort, List.merge, scoredLe]
  norm_num

/-- **C6, amended.** The output of `search_vendors` contains each
non-empty URL of the raw hit list exactly once; the record kept for a
URL is its first occurrence in the provider/query iteration order; hits
with an empty URL are dropped; and the output is ordered by relevance
score descending (stable), not by first-occurrence position. -/
theorem C6_dedup_amended (service location platform : String) (raw : List SearchHit) :
    (∀ sh ∈ search_vendors service location platform raw, sh.hit.link ≠ "")
      ∧ (∀ u : String, u ≠ "" →
          (search_vendors service location platform raw).countP
              (fun sh => sh.hit.link == u)
            = if ∃ x ∈ raw, x.link = u then 1 else 0)
      ∧ (∀ sh ∈ search_vendors service location platform raw,
          raw.find? (fun x => x.link == sh.hit.link) = some sh.hit)
      ∧ (search_vendors service location platform raw).Pairwise
          (fun a b => b.relevance_score ≤ a.relevance_score) := by
  refine ⟨?_, ?_, ?_, ?_⟩
  · intro sh hm
    exact (dedupHits_link (mem_search_vendors hm).1).2
  · intro u hu
    unfold search_vendors
    rw [(List.mergeSort_perm _ _).countP_eq, List.countP_map]
    have := dedupHits_countP hu raw []
    simpa using this
  · intro sh hm
    exact dedupHits_first (mem_search_vendors hm).1
  · have hs := List.sorted_mergeSort scoredLe_trans scoredLe_total
      ((dedupHits [] raw).map
        (fun h => ⟨h, relevance_score service location platform h⟩))
    exact hs.imp (fun {a b} hab => by simpa [scoredLe] using hab)

/-- Witness for C6 amended: on a concrete two-hit list that repeats a
URL, the kept record is the first occurrence and the repeated URL counts
once. -/
theorem C6_dedup_amended_witness :
    (∀ sh ∈ search_vendors "cake" "lagos" "instagram"
        [c6_hit_first, c6_hit_second, c6_hit_first], sh.hit.link ≠ "")
      ∧ (search_vendors "cake" "lagos" "instagram"
          [c6_hit_first, c6_hit_second, c6_hit_first]).countP
            (fun sh => sh.hit.link == "http://a.example") = 1 := by
  have h := C6_dedup_amended "cake" "lagos" "instagram"
    [c6_hit_first, c6_hit_second, c6_hit_first]
  refine ⟨h.1, ?_⟩
  rw [h.2.1 "http://a.example" (by decide)]
  simp [c6_hit_first, c6_hit_second]

/-! ## `vendor_extractor.py` — data model

External effects of `VendorExtractor` (the HTTP page fetch plus
BeautifulSoup text/title extraction, the Google Places lookup, the
reverse-geocoding call, and the regex engine behind the WhatsApp /
Instagram extractors) are oracle fields of `ExtractorEnv`; every theorem
below quantifies over all of them.  The keyword tables, URL filter,
gazetteer lookup, soft-signal scan and the confidence arithmetic are
translated directly. -/

structure MapsRec where
  address : Option String
  latitude : Option ℚ
  longitude : Option ℚ
  rating : Option ℚ
  place_id : Option String
  source : String
  deriving DecidableEq, Repr

/-- Result of `fetch_page_content` followed by BeautifulSoup's
`get_text` and `find("title")`. -/
structure PageData where
  text : String
  pageTitle : Option String

structure ExtractorEnv where
  gmaps_client : Bool
  extract_whatsapp_numbers : String → List String
  extract_instagram_links : String → List String
  fetch_page : String → Option PageData
  places : String → String → Option MapsRec
  reverse_geocode : ℚ × ℚ → Option String

structure Vendor where
  name : String
  source : String
  url : String
  whatsapp : List String
  instagram : List String
  locText : Option String
  locResolved : Option String
  google_maps : Option MapsRec
  confidence_score : ℚ
  evidence : List String
  deriving DecidableEq, Repr

/-- The two shapes `extract_vendor_info` can return: the early-discard
dicts (`confidence_score`, `discarded=True`, optional `reason`) or a
full vendor profile. -/
inductive ExtractOutcome where
  | discarded (confidence_score : ℚ) (reason : Option String)
  | vendor (v : Vendor)
  deriving DecidableEq, Repr

def outcome_confidence : ExtractOutcome → ℚ
  | .discarded c _ => c
  | .vendor v => v.confidence_score

def outcome_is_discarded : ExtractOutcome → Bool
  | .discarded _ _ => true
  | .vendor _ => false

/-! ### Fixed keyword tables and pure predicates -/

def JOB_KEYWORDS : List String :=
  ["hiring", "salary", "vacancy", "apply", "job", "career", "position",
   "recruiting", "opening", "employment"]

def is_job_post (text : String) : Bool :=
  JOB_KEYWORDS.any (fun w => strContains (lowerStr text) w)

def bad_url_keywords : List String := ["news", "press", "job", "vacancy", "salary"]

def is_potential_vendor_url (url : String) : Bool :=
  if url = "" then false
  else if strContains url "instagram.com/p/" then false
  else if bad_url_keywords.any (fun w => strContains (lowerStr url) w) then false
  else true

def common_locations : List String :=
  ["lagos", "abuja", "ibadan", "port harcourt", "ph", "lekki", "ikeja", "ajah",
   "yaba", "surulere", "ikorodu", "benin", "asaba", "uyo", "owerri"]

def infer_location_from_text (text fallback_location : String) : Option String :=
  match common_locations.find? (fun loc => strContains (lowerStr text) loc) with
  | some loc => some (titleCase loc)
  | none => if fallback_location ≠ "" then some fallback_location else none

def soft_signal_phrases : List String :=
  ["order now", "call us", "dm us", "whatsapp", "delivery", "we offer",
   "our services", "bookings", "price", "pricing", "available", "located in",
   "based in", "lagos", "abuja"]

def detect_soft_contact_signals (text : String) : Bool :=
  if text = "" then false
  else 2 ≤ (soft_signal_phrases.filter (fun s => strContains (lowerStr text) s)).length

/-- Python truthiness of an `Optional[float]` (`None` and `0.0` are
falsy). -/
def optQTruthy : Option ℚ → Bool
  | none => false
  | some q => q ≠ 0

/-- Python's `x or y` for `x : Optional[str]`, `y : str`. -/
def pyOrStr : Option String → String → String
  | some s, y => if s = "" then y else s
  | none, y => y

/-- `list(set(xs))`: set semantics keeps one copy of each string (the
iteration order of a Python set is unspecified; first-occurrence order
is one admissible choice, and nothing downstream depends on the
order). -/
def dedupStrs (seen : List String) : List String → List String
  | [] => []
  | x :: rest =>
    if x ∈ seen then dedupStrs seen rest else x :: dedupStrs (x :: seen) rest

/-! ### Confidence and enrichment -/

def calculate_confidence_score (vendor : Vendor) : ℚ :=
  let s : ℚ :=
    (if vendor.whatsapp ≠ [] then 3/10 else 0)
    + (if vendor.instagram ≠ [] then 2/10 else 0)
    + (if optStrTruthy vendor.locResolved then 3/10 else 0)
    + (if vendor.google_maps.isSome then 2/10 else 0)
  round2 (min s 1)

def enrich_with_google_maps (env : ExtractorEnv) (business_name location : String) :
    Option MapsRec :=
  if ¬ env.gmaps_client ∨ business_name = "" then none
  else env.places business_name location

/-- `enrich_google_maps_location`.  After the two early returns, the
source evaluates `self.gmaps.reverse_geocode((lat, lng))` — but
`VendorExtractor.__init__` only ever assigns `self.gmaps_client`, never
`self.gmaps`, so the attribute access raises `AttributeError` before any
geocoding request is issued, and `except Exception: pass` swallows it.
The record is therefore always returned unchanged and
`env.reverse_geocode` is never consulted.  (The `if not location` head
check cannot fire: the argument is a six-key dict, which is truthy.) -/
def enrich_google_maps_location (_env : ExtractorEnv) (location : MapsRec) : MapsRec :=
  if optStrTruthy location.address then location
  else
    if ¬ optQTruthy location.latitude ∨ ¬ optQTruthy location.longitude then location
    else location

/-! ### `extract_vendor_info` -/

/-- The vendor record as it stands after snippet/page extraction,
enrichment, cleanup, and the soft-signal bonus — i.e. just before the
final `confidence_score += calculate_confidence_score(vendor)` line. -/
def vendor_core (env : ExtractorEnv) (sr : SearchHit) (user_location : String) : Vendor :=
  let url := sr.link
  let snippet := sr.snippet
  let wa0 := env.extract_whatsapp_numbers snippet
  let ig0 := env.extract_instagram_links snippet
  let inferred0 := infer_location_from_text snippet user_location
  let pg := env.fetch_page url
  let page_text := match pg with
    | some p => p.text
    | none => ""
  let wa1 := match pg with
    | some p => wa0 ++ env.extract_whatsapp_numbers p.text
    | none => wa0
  let ig1 := match pg with
    | some p => ig0 ++ (env.extract_instagram_links p.text).filter
        (fun l => ¬ strContains l "/p/")
    | none => ig0
  let name := match pg with
    | some p =>
      match p.pageTitle with
      | some t => t
      | none => sr.title
    | none => sr.title
  let inferred := match pg with
    | some p => infer_location_from_text p.text (pyOrStr inferred0 user_location)
    | none => inferred0
  let doMaps : Bool := (name ≠ "" : Bool) && optStrTruthy inferred
  let google_maps : Option MapsRec :=
    if doMaps then
      match enrich_with_google_maps env name (inferred.getD "") with
      | some m => some (enrich_google_maps_location env m)
      | none => none
    else none
  let resolved : Option String := if doMaps then inferred else none
  let soft := detect_soft_contact_signals (lowerStr (snippet ++ " " ++ page_text))
  { name := name
    source := sr.source
    url := url
    whatsapp := dedupStrs [] wa1
    instagram := dedupStrs [] ig1
    locText := inferred
    locResolved := resolved
    google_maps := google_maps
    confidence_score := if soft then 1/10 else 0
    evidence := if soft then ["soft_contact_signal"] else [] }

/-- `extract_vendor_info`: the two hard filters, then the vendor build
with the final `confidence_score += calculate_confidence_score(vendor)`
accumulation. -/
def extract_vendor_info (env : ExtractorEnv) (sr : SearchHit) (user_location : String) :
    ExtractOutcome :=
  if is_job_post (sr.title ++ " " ++ sr.snippet) then
    .discarded 0 (some "job_post_detected")
  else if ¬ is_potential_vendor_url sr.link then
    .discarded 0 none
  else
    let core := vendor_core env sr user_location
    .vendor { core with
      confidence_score := core.confidence_score + calculate_confidence_score core }

/-! ### Lemmas about extraction -/

theorem is_potential_vendor_url_ne {u : String}
    (h : is_potential_vendor_url u = true) : u ≠ "" := by
  intro he
  subst he
  simp [is_potential_vendor_url] at h

theorem calculate_confidence_score_bounds (v : Vendor) :
    0 ≤ calculate_confidence_score v ∧ calculate_confidence_score v ≤ 1 := by
  unfold calculate_confidence_score
  apply round2_bounds
  · apply le_min _ (by norm_num)
    split <;> split <;> split <;> split <;> norm_num
  · exact min_le_right _ _

theorem calculate_confidence_score_update (core : Vendor) (x : ℚ) :
    calculate_confidence_score { core with confidence_score := x }
      = calculate_confidence_score core := by
  simp [calculate_confidence_score]

theorem vendor_core_conf (env : ExtractorEnv) (sr : SearchHit) (loc : String) :
    (vendor_core env sr loc).confidence_score
      = if "soft_contact_signal" ∈ (vendor_core env sr loc).evidence
          then 1/10 else 0 := by
  simp only [vendor_core]
  split <;> simp

theorem vendor_core_url (env : ExtractorEnv) (sr : SearchHit) (loc : String) :
    (vendor_core env sr loc).url = sr.link := rfl

/-- Inversion of `extract_vendor_info` in the non-discarded case. -/
theorem extract_vendor_eq {env : ExtractorEnv} {sr : SearchHit} {loc : String}
    {v : Vendor} (h : extract_vendor_info env sr loc = .vendor v) :
    is_potential_vendor_url sr.link = true
      ∧ v = { vendor_core env sr loc with
              confidence_score := (vendor_core env sr loc).confidence_score
                + calculate_confidence_score (vendor_core env sr loc) } := by
  unfold extract_vendor_info at h
  split at h
  · exact absurd h (by simp)
  · split at h
    · exact absurd h (by simp)
    · rename_i h2
      rw [ExtractOutcome.vendor.injEq] at h
      constructor
      · simpa using h2
      · exact h.symm

/-- The confidence score of a non-discarded candidate, as a function of
the candidate's own fields only. -/
def conf_from_candidate (v : Vendor) : ℚ :=
  (if "soft_contact_signal" ∈ v.evidence then (1:ℚ)/10 else 0)
    + calculate_confidence_score v

theorem extract_conf_decomp {env : ExtractorEnv} {sr : SearchHit} {loc : String}
    {v : Vendor} (h : extract_vendor_info env sr loc = .vendor v) :
    v.confidence_score = conf_from_candidate v := by
  obtain ⟨-, hv⟩ := extract_vendor_eq h
  subst hv
  unfold conf_from_candidate
  rw [calculate_confidence_score_update]
  show (vendor_core env sr loc).confidence_score + _ = _
  rw [vendor_core_conf env sr loc]
  simp [calculate_confidence_score]

/-! ## Claim C9 — non-discarded candidates -/

/-- **C9.** Every candidate returned by `extract_vendor_info` that is
not marked discarded has a non-empty `identity.url`, and its confidence
score is computed solely from fields present on the candidate itself
(`conf_from_candidate` reads only the candidate's WhatsApp and Instagram
sets, resolved location, enrichment presence and evidence tags). -/
theorem C9_invariant (env : ExtractorEnv) (sr : SearchHit) (loc : String)
    (v : Vendor) (h : extract_vendor_info env sr loc = .vendor v) :
    v.url ≠ "" ∧ v.confidence_score = conf_from_candidate v := by
  obtain ⟨hurl, hv⟩ := extract_vendor_eq h
  constructor
  · have : v.url = sr.link := by rw [hv]; exact vendor_core_url env sr loc
    rw [this]
    exact is_potential_vendor_url_ne hurl
  · exact extract_conf_decomp h

/-- Concrete minimal extraction environment: no Maps client, no page
fetch, regex extractors find nothing. -/
def ext_env0 : ExtractorEnv :=
  { gmaps_client := false
    extract_whatsapp_numbers := fun _ => []
    extract_instagram_links := fun _ => []
    fetch_page := fun _ => none
    places := fun _ _ => none
    reverse_geocode := fun _ => none }

def ext_hit0 : SearchHit :=
  { title := "Shop", link := "http://s.example", snippet := "",
    source := "google", query_used := "" }

def ext_vendor0 : Vendor :=
  { name := "Shop", source := "google", url := "http://s.example",
    whatsapp := [], instagram := [], locText := some "Lagos",
    locResolved := some "Lagos", google_maps := none,
    confidence_score := 3/10, evidence := [] }

theorem ext_eval0 : extract_vendor_info ext_env0 ext_hit0 "Lagos" = .vendor ext_vendor0 := by
  simp +decide [extract_vendor_info, vendor_core, ext_env0, ext_hit0, ext_vendor0,
    enrich_with_google_maps, calculate_confidence_score, dedupStrs, round2,
    infer_location_from_text, detect_soft_contact_signals]
  norm_num

/-- Witness for C9: a concrete extraction returning a non-discarded
candidate with non-empty URL and self-contained confidence. -/
theorem C9_invariant_witness :
    extract_vendor_info ext_env0 ext_hit0 "Lagos" = .vendor ext_vendor0
      ∧ ext_vendor0.url ≠ ""
      ∧ ext_vendor0.confidence_score = conf_from_candidate ext_vendor0 :=
  ⟨ext_eval0, (C9_invariant ext_env0 ext_hit0 "Lagos" ext_vendor0 ext_eval0).1,
    (C9_invariant ext_env0 ext_hit0 "Lagos" ext_vendor0 ext_eval0).2⟩

/-! ## Claim C1 — confidence score of extracted candidates -/

/-- **C1, amended.** The *base* contributions (+0.3 WhatsApp, +0.2
Instagram, +0.3 resolved location, +0.2 enrichment) are summed, clamped
to [0,1] and rounded to 2 decimals — but the soft-signal bonus (+0.1) is
added *outside* that clamp (it is applied to `confidence_score` before
`calculate_confidence_score` is accumulated).  Hence the final score
lies in [0, 1.1], not [0, 1]; it is at most 1 exactly when the
soft-signal bonus was not granted.  Discarded candidates score 0. -/
theorem C1_confidence_amended (env : ExtractorEnv) (sr : SearchHit) (loc : String) :
    (∀ v, extract_vendor_info env sr loc = .vendor v →
        v.confidence_score
            = (if "soft_contact_signal" ∈ v.evidence then (1:ℚ)/10 else 0)
              + round2 (min ((if v.whatsapp ≠ [] then (3:ℚ)/10 else 0)
                  + (if v.instagram ≠ [] then (2:ℚ)/10 else 0)
                  + (if optStrTruthy v.locResolved then (3:ℚ)/10 else 0)
                  + (if v.google_maps.isSome then (2:ℚ)/10 else 0)) 1)
          ∧ 0 ≤ v.confidence_score ∧ v.confidence_score ≤ 11/10
          ∧ ("soft_contact_signal" ∉ v.evidence → v.confidence_score ≤ 1))
      ∧ (∀ c r, extract_vendor_info env sr loc = .discarded c r → c = 0) := by
  constructor
  · intro v h
    have hd := extract_conf_decomp h
    have hb := calculate_confidence_score_bounds v
    refine ⟨?_, ?_, ?_, ?_⟩
    · rw [hd]; rfl
    · rw [hd]; unfold conf_from_candidate
      split <;> linarith [hb.1]
    · rw [hd]; unfold conf_from_candidate
      split <;> linarith [hb.2]
    · intro hn
      rw [hd]; unfold conf_from_candidate
      rw [if_neg hn]
      linarith [hb.2]
  · intro c r h
    unfold extract_vendor_info at h
    split at h
    · rw [ExtractOutcome.discarded.injEq] at h
      exact h.1.symm
    · split at h
      · rw [ExtractOutcome.discarded.injEq] at h
        exact h.1.symm
      · exact absurd h (by simp)

/-- Environment exercising every confidence signal at once: regexes find
a WhatsApp number and an Instagram link, the snippet carries three soft
signals and a gazetteer city, and the Places lookup answers. -/
def c1_maps : MapsRec :=
  { address := some "1 Cake Street, Lagos", latitude := some (13/2),
    longitude := some (17/5), rating := some (9/2),
    place_id := some "abc123", source := "google_maps" }

def c1_env : ExtractorEnv :=
  { gmaps_client := true
    extract_whatsapp_numbers := fun _ => ["+2348011122233"]
    extract_instagram_links := fun _ => ["https://instagram.com/bestcakes"]
    fetch_page := fun _ => none
    places := fun _ _ => some c1_maps
    reverse_geocode := fun _ => none }

def c1_hit : SearchHit :=
  { title := "Best Cakes", link := "https://cakes.example",
    snippet := "whatsapp delivery lagos", source := "google", query_used := "" }

def c1_vendor : Vendor :=
  { name := "Best Cakes", source := "google", url := "https://cakes.example",
    whatsapp := ["+2348011122233"], instagram := ["https://instagram.com/bestcakes"],
    locText := some "Lagos", locResolved := some "Lagos",
    google_maps := some c1_maps, confidence_score := 11/10,
    evidence := ["soft_contact_signal"] }

/-- **C1, counterexample.** A candidate holding all four base signals
*and* the soft-signal bonus is not discarded and scores 1.1 > 1: the
claimed clamp of the final score to [0,1] does not hold, because the
soft bonus is added before (outside) the clamped base sum. -/
theorem C1_confidence_counterexample :
    extract_vendor_info c1_env c1_hit "Lagos" = .vendor c1_vendor
      ∧ c1_vendor.confidence_score = 11/10
      ∧ ¬ (c1_vendor.confidence_score ≤ 1) := by
  refine ⟨?_, rfl, by norm_num [c1_vendor]⟩
  have hinfer : infer_location_from_text "whatsapp delivery lagos" "Lagos"
      = some (titleCase "lagos") := by decide
  have htitle : titleCase "lagos" = "Lagos" := by decide
  rw [htitle] at hinfer
  simp +decide [extract_vendor_info, vendor_core, c1_env, c1_hit, c1_vendor, c1_maps,
    enrich_with_google_maps, enrich_google_maps_location, calculate_confidence_score,
    dedupStrs, round2, hinfer]
  norm_num

/-- Witness for C1 amended: the amended formula and bounds instantiated
at the all-signals candidate, whose score is exactly 1.1. -/
theorem C1_confidence_amended_witness :
    c1_vendor.confidence_score
        = (if "soft_contact_signal" ∈ c1_vendor.evidence then (1:ℚ)/10 else 0)
          + round2 (min ((if c1_vendor.whatsapp ≠ [] then (3:ℚ)/10 else 0)
              + (if c1_vendor.instagram ≠ [] then (2:ℚ)/10 else 0)
              + (if optStrTruthy c1_vendor.locResolved then (3:ℚ)/10 else 0)
              + (if c1_vendor.google_maps.isSome then (2:ℚ)/10 else 0)) 1)
      ∧ 0 ≤ c1_vendor.confidence_score ∧ c1_vendor.confidence_score ≤ 11/10 := by
  have h : extract_vendor_info c1_env c1_hit "Lagos" = .vendor c1_vendor := by
    have hinfer : infer_location_from_text "whatsapp delivery lagos" "Lagos"
        = some (titleCase "lagos") := by decide
    have htitle : titleCase "lagos" = "Lagos" := by decide
    rw [htitle] at hinfer
    simp +decide [extract_vendor_info, vendor_core, c1_env, c1_hit, c1_vendor, c1_maps,
      enrich_with_google_maps, enrich_google_maps_location, calculate_confidence_score,
      dedupStrs, round2, hinfer]
    norm_num
  have := (C1_confidence_amended c1_env c1_hit "Lagos").1 c1_vendor h
  exact ⟨this.1, this.2.1, this.2.2.1⟩

/-! ## Claim C7 — reverse-geocoding fallback -/

def c7_maps : MapsRec :=
  { address := none, latitude := some (129/20), longitude := some (339/100),
    rating := none, place_id := some "pid", source := "google_maps" }

def c7_env : ExtractorEnv :=
  { gmaps_client := true
    extract_whatsapp_numbers := fun _ => []
    extract_instagram_links := fun _ => []
    fetch_page := fun _ => none
    places := fun _ _ => some c7_maps
    reverse_geocode := fun _ => some "10 Marina Road, Lagos" }

def c7_hit : SearchHit :=
  { title := "Cakes by A", link := "http://cb.example",
    snippet := "best cakes in lagos", source := "google", query_used := "" }

def c7_vendor : Vendor :=
  { name := "Cakes by A", source := "google", url := "http://cb.example",
    whatsapp := [], instagram := [], locText := some "Lagos",
    locResolved := some "Lagos", google_maps := some c7_maps,
    confidence_score := 1/2, evidence := [] }

/-- **C7 (code bug).** The enrichment record returned by the Places
lookup lacks an address but carries coordinates, and the
reverse-geocoding capability would answer for those coordinates — yet
the stored enrichment record keeps `address = none`: the source reads
`self.gmaps`, an attribute `VendorExtractor.__init__` never assigns (it
assigns `gmaps_client`), so the geocoding branch dies on a swallowed
`AttributeError` and the claimed address fill never happens. -/
theorem C7_reverse_geocode_dead :
    c7_maps.address = none
      ∧ optQTruthy c7_maps.latitude = true
      ∧ optQTruthy c7_maps.longitude = true
      ∧ c7_env.reverse_geocode (129/20, 339/100) = some "10 Marina Road, Lagos"
      ∧ enrich_google_maps_location c7_env c7_maps = c7_maps
      ∧ extract_vendor_info c7_env c7_hit "Lagos" = .vendor c7_vendor
      ∧ c7_vendor.google_maps = some c7_maps := by
  refine ⟨rfl, by norm_num [c7_maps, optQTruthy], by norm_num [c7_maps, optQTruthy],
    rfl, ?_, ?_, rfl⟩
  · norm_num [enrich_google_maps_location, c7_maps, optStrTruthy, optQTruthy]
  · have hinfer : infer_location_from_text "best cakes in lagos" "Lagos"
        = some (titleCase "lagos") := by decide
    have htitle : titleCase "lagos" = "Lagos" := by decide
    rw [htitle] at hinfer
    simp +decide [extract_vendor_info, vendor_core, c7_env, c7_hit, c7_vendor, c7_maps,
      enrich_with_google_maps, enrich_google_maps_location, calculate_confidence_score,
      dedupStrs, round2, hinfer]
    norm_num

/-! ## `llm_reasoner.py`

The OpenAI chat calls are oracles.  A reply passes through `_safe_json`,
producing a dict; the orchestrator reads only specific keys of it, so a
reply is modelled through that lens: for `decide_next_search` the value
of its `"action"` key (`none` when the `action` lookup cannot produce a
value — a dict without the key, on which `find_vendors` later raises
`KeyError`, or a non-dict reply, on which its `.get` raises
`AttributeError`; both are uncaught in `find_vendors`, and a non-string
`action` value compares unequal to every action name without raising,
like an unmatched string), for `rerank_vendors` the whole parsed reply
as `RerankJson` (dict or not, with id entries as JSON scalars: ill-typed
entries raise inside `find_vendors`), for `is_actual_vendor` the final
`bool(result.get("is_vendor"))` and for `analyze_results` the three
analysis keys (a malformed analysis reply is embedded in the result
as-is and raises nothing).  `.error ()` models an exception inside the
API call, handled by each method's `except`. -/

/-- An integer-typed re-rank reply: the well-typed case of
`RerankJson`, consumed loss-free by `apply_rerank`
(`apply_rerank_ids_int` is the bridge). -/
structure RerankResp where
  ordered_vendor_ids : List ℤ
  reasoning : Option String

/-- One entry of a re-rank reply's `ordered_vendor_ids`, as
`find_vendors` (lines 138-144) consumes it.  JSON booleans are Python
`bool`, an `int` subclass, and behave exactly like the integers 0/1 in
both the range comparison and the indexing, so they fold into `jint`.
`jfloat` passes the `0 <= i < n` comparison (dropped silently when out
of range) but raises `TypeError` at `ranked_vendors[i]` when in range.
`jother` stands for every non-numeric JSON value (string, null, list,
dict), all of which raise `TypeError` at the `0 <= i` comparison. -/
inductive JsonId where
  | jint (i : ℤ)
  | jfloat (q : ℚ)
  | jother
  deriving DecidableEq, Repr

/-- The numeric value `0 <= i < len(ranked_vendors)` compares; `none`
means the comparison raises `TypeError`. -/
def json_id_cmp : JsonId → Option ℚ
  | .jint i => some (i : ℚ)
  | .jfloat q => some q
  | .jother => none

/-- The value usable as the index in `ranked_vendors[i]`; `none` means
the indexing raises `TypeError`. -/
def json_id_index : JsonId → Option ℤ
  | .jint i => some i
  | _ => none

/-- A parsed `rerank_vendors` reply as `find_vendors` reads it: a dict
carrying the value of `ordered_vendor_ids` (`none` = key missing, so
`.get` yields the default `[]`) and of `reasoning`, or a non-dict JSON
value, on which `rerank.get` raises `AttributeError`.  A dict whose
`ordered_vendor_ids` is present but not a list behaves like one of the
modelled lists: a non-empty string or dict iterates into non-numeric
elements and a non-iterable raises at the `for` itself — observationally
`[.jother]` — while an empty string or dict iterates into nothing —
observationally `[]`.  A truthy non-string `reasoning` value is
appended without raising, like a non-empty string. -/
inductive RerankJson where
  | rdict (ordered_vendor_ids : Option (List JsonId)) (reasoning : Option String)
  | nondict

structure Analysis where
  explanation : String
  result_quality : String
  clarifying_question : String
  deriving DecidableEq, Repr

structure ReasonerEnv where
  client : Bool
  decideOracle : Nat → Except Unit (Option String)
  rerankOracle : Nat → Except Unit RerankJson
  isVendorOracle : Nat → Nat → Except Unit Bool
  analyzeOracle : Nat → Except Unit Analysis

/-- `LLMReasoner._fallback_analysis` (the `error` key it also carries is
read by nothing and is omitted). -/
def fallback_analysis (service location : String) (vendors : List Vendor) : Analysis :=
  { explanation := s!"Found {vendors.length} vendors for {service} in {location} based on contact availability and location relevance."
    result_quality := if 3 ≤ vendors.length then "good" else "weak"
    clarifying_question := "NO_QUESTION" }

def analyze_results (env : ReasonerEnv) (attempt : Nat) (service location : String)
    (vendors : List Vendor) : Analysis :=
  if ¬ env.client ∨ vendors = [] then fallback_analysis service location vendors
  else
    match env.analyzeOracle attempt with
    | .error _ => fallback_analysis service location vendors
    | .ok a => a

/-- `decide_next_search` (the `service`/`location`/`platform` arguments
only shape the prompt).  Returns the `"action"` field of the reply
dict. -/
def decide_next_search (env : ReasonerEnv) (attempt : Nat)
    (_service _location _platform : String) (vendors : List Vendor) : Option String :=
  if 3 ≤ vendors.length then some "STOP"
  else if ¬ env.client then some "STOP"
  else
    match env.decideOracle attempt with
    | .error _ => some "STOP"
    | .ok a => a

/-- `rerank_vendors` (the failure-branch reasoning string interpolates
the exception text; nothing reads it, a fixed string stands in).  The
two deterministic fallback dicts carry `list(range(len(vendors)))`,
i.e. well-typed integer ids; only an oracle reply can be ill-typed. -/
def rerank_vendors (env : ReasonerEnv) (attempt : Nat) (vendors : List Vendor) :
    RerankJson :=
  if ¬ env.client ∨ vendors.length < 2 then
    .rdict (some ((List.range vendors.length).map (fun n => .jint (Int.ofNat n))))
      (some "Deterministic ranking retained.")
  else
    match env.rerankOracle attempt with
    | .error _ =>
      .rdict (some ((List.range vendors.length).map (fun n => .jint (Int.ofNat n))))
        (some "LLM re-ranking failed.")
    | .ok r => r

/-- `is_actual_vendor`, indexed by the attempt and the position of the
hit under consideration (the reply may depend on the prompt; indexing by
call site is fully general for the deterministic loop). -/
def is_actual_vendor (env : ReasonerEnv) (attempt idx : Nat) : Bool :=
  if ¬ env.client then true
  else
    match env.isVendorOracle attempt idx with
    | .error _ => true
    | .ok b => b

/-! ## Claim C3 — `decide_next_search` guardrail -/

/-- **C3.** With 3 or more candidates `decide_next_search` returns
`STOP` without consulting the oracle (the result does not depend on
`client` or on the oracle response); with fewer than 3 candidates it
also returns `STOP` when no client is configured, and on any oracle
failure. -/
theorem C3_guardrail (env : ReasonerEnv) (attempt : Nat)
    (service location platform : String) (vendors : List Vendor) :
    (3 ≤ vendors.length →
        decide_next_search env attempt service location platform vendors = some "STOP")
      ∧ (env.client = false →
        decide_next_search env attempt service location platform vendors = some "STOP")
      ∧ (env.decideOracle attempt = .error () →
        decide_next_search env attempt service location platform vendors = some "STOP") := by
  refine ⟨fun h => ?_, fun h => ?_, fun h => ?_⟩
  · unfold decide_next_search
    rw [if_pos h]
  · unfold decide_next_search
    split
    · rfl
    · rw [if_pos (by simp [h])]
  · unfold decide_next_search
    split
    · rfl
    · split
      · rfl
      · rw [h]

def c3_env_on : ReasonerEnv :=
  { client := true, decideOracle := fun _ => .ok (some "EXPAND_LOCATION")
    rerankOracle := fun _ => .error (), isVendorOracle := fun _ _ => .ok true
    analyzeOracle := fun _ => .error () }

def c3_env_off : ReasonerEnv :=
  { client := false, decideOracle := fun _ => .ok (some "EXPAND_LOCATION")
    rerankOracle := fun _ => .error (), isVendorOracle := fun _ _ => .ok true
    analyzeOracle := fun _ => .error () }

def c3_env_err : ReasonerEnv :=
  { client := true, decideOracle := fun _ => .error ()
    rerankOracle := fun _ => .error (), isVendorOracle := fun _ _ => .ok true
    analyzeOracle := fun _ => .error () }

/-- Witness for C3: a reachable oracle that would answer
`EXPAND_LOCATION` is overridden by the 3-candidate guardrail; an absent
client and a failing oracle both fall back to `STOP`. -/
theorem C3_guardrail_witness :
    decide_next_search c3_env_on 1 "cake" "Lagos" "instagram"
        [ext_vendor0, ext_vendor0, ext_vendor0] = some "STOP"
      ∧ decide_next_search c3_env_off 1 "cake" "Lagos" "instagram" [] = some "STOP"
      ∧ decide_next_search c3_env_err 1 "cake" "Lagos" "instagram" [ext_vendor0]
          = some "STOP" :=
  ⟨(C3_guardrail c3_env_on 1 "cake" "Lagos" "instagram" _).1 (by simp),
   (C3_guardrail c3_env_off 1 "cake" "Lagos" "instagram" _).2.1 rfl,
   (C3_guardrail c3_env_err 1 "cake" "Lagos" "instagram" _).2.2 rfl⟩

/-! ## Claim C5 — validity filtering in the re-rank step -/

instance : Inhabited Vendor :=
  ⟨{ name := "", source := "", url := "", whatsapp := [], instagram := [],
     locText := none, locResolved := none, google_maps := none,
     confidence_score := 0, evidence := [] }⟩

/-- `vendor_finder.py` lines 138-144: keep only in-range indices of the
oracle's `ordered_vendor_ids`; a non-empty valid list defines the new
order, an empty one keeps the prior order.  (`getD` stands for the
guarded `ranked_vendors[i]`; the guard makes the default dead.) -/
def apply_rerank (ranked : List Vendor) (rr : RerankResp) : List Vendor :=
  let valid_ids := rr.ordered_vendor_ids.filter
    (fun i => decide (0 ≤ i ∧ i < (ranked.length : ℤ)))
  if valid_ids ≠ [] then valid_ids.map (fun i => ranked.getD i.toNat default)
  else ranked

/-- **C5.** In the re-rank step, indices outside `[0, n)` are dropped;
zero surviving indices keep the prior order; surviving indices select
existing candidates; and the response `{"ordered_vendor_ids": [5, 0]}`
against a 2-candidate list yields `[candidate0]`. -/
theorem C5_rerank_valid_ids :
    (∀ (ranked : List Vendor) (rr : RerankResp),
        rr.ordered_vendor_ids.filter
            (fun i => decide (0 ≤ i ∧ i < (ranked.length : ℤ))) = []
          → apply_rerank ranked rr = ranked)
      ∧ (∀ (ranked : List Vendor) (rr : RerankResp),
          ∀ v ∈ apply_rerank ranked rr, v ∈ ranked)
      ∧ (∀ v0 v1 : Vendor,
          apply_rerank [v0, v1] { ordered_vendor_ids := [5, 0], reasoning := none }
            = [v0]) := by
  refine ⟨fun ranked rr h => ?_, fun ranked rr v hv => ?_, fun v0 v1 => ?_⟩
  · simp only [apply_rerank, h]
    simp
  · simp only [apply_rerank] at hv
    split at hv
    · rcases List.mem_map.mp hv with ⟨i, hi, rfl⟩
      have hrange := List.of_mem_filter hi
      have h0 : 0 ≤ i := (of_decide_eq_true hrange).1
      have h1 : i.toNat < ranked.length := by
        have := (of_decide_eq_true hrange).2
        omega
      rw [List.getD_eq_getElem ranked default h1]
      exact List.getElem_mem h1
    · exact hv
  · simp +decide [apply_rerank]

/-- Witness for C5: the zero-valid-indices branch at a concrete input
(index 3 against an empty candidate list is dropped, order kept). -/
theorem C5_rerank_valid_ids_witness :
    apply_rerank [] { ordered_vendor_ids := [3], reasoning := none } = []
      ∧ apply_rerank [ext_vendor0, c1_vendor]
          { ordered_vendor_ids := [5, 0], reasoning := none } = [ext_vendor0] :=
  ⟨C5_rerank_valid_ids.1 [] _ (by decide),
   C5_rerank_valid_ids.2.2 ext_vendor0 c1_vendor⟩

/-! ## `vendor_finder.py` — deterministic ranking (claim C8) -/

/-- `ranking_key` from `rank_vendors`: Python compares the tuple
`(confidence_score, contact_score, social_score, location_score)`
lexicographically. -/
def ranking_key (v : Vendor) : ℚ × ℕ × ℕ × ℕ :=
  (v.confidence_score,
   if v.whatsapp ≠ [] then 1 else 0,
   if v.instagram ≠ [] then 1 else 0,
   if v.google_maps.isSome then 1 else 0)

/-- Python tuple comparison is the lexicographic order. -/
def keyLex (k : ℚ × ℕ × ℕ × ℕ) : ℚ ×ₗ (ℕ ×ₗ (ℕ ×ₗ ℕ)) :=
  toLex (k.1, toLex (k.2.1, toLex (k.2.2.1, k.2.2.2)))

/-- The comparison realised by `vendors.sort(key=ranking_key,
reverse=True)`: descending in the key, ties keeping prior order (a
stable sort with this total relation has exactly that behaviour). -/
def vrank_le (a b : Vendor) : Bool :=
  decide (keyLex (ranking_key b) ≤ keyLex (ranking_key a))

def rank_vendors (vendors : List Vendor) : List Vendor :=
  vendors.mergeSort vrank_le

theorem vrank_le_trans (a b c : Vendor) :
    vrank_le a b → vrank_le b c → vrank_le a c := by
  simp only [vrank_le, decide_eq_true_eq]
  exact fun h1 h2 => le_trans h2 h1

theorem vrank_le_total (a b : Vendor) : vrank_le a b || vrank_le b a := by
  simp only [vrank_le, Bool.or_eq_true, decide_eq_true_eq]
  exact le_total _ _

/-- **C8.** `rank_vendors` is a permutation of its input, sorted
descending in the lexicographic tuple
`(confidence_score, whatsapp≠[], instagram≠[], enrichment present)`, and
stable: the candidates carrying any fixed tuple appear in the output in
exactly their input order. -/
theorem C8_ranking_stable (l : List Vendor) :
    (rank_vendors l).Perm l
      ∧ (rank_vendors l).Pairwise
          (fun a b => keyLex (ranking_key b) ≤ keyLex (ranking_key a))
      ∧ ∀ t : ℚ × ℕ × ℕ × ℕ,
          (rank_vendors l).filter (fun v => decide (ranking_key v = t))
            = l.filter (fun v => decide (ranking_key v = t)) := by
  refine ⟨List.mergeSort_perm l vrank_le, ?_, ?_⟩
  · exact (List.sorted_mergeSort vrank_le_trans vrank_le_total l).imp
      (fun hab => by simpa [vrank_le] using hab)
  · intro t
    set p : Vendor → Bool := fun v => decide (ranking_key v = t) with hp
    have hpair : (l.filter p).Pairwise (fun a b => vrank_le a b) := by
      apply List.pairwise_of_forall_mem_list
      intro a ha b hb
      have ha' : ranking_key a = t := by
        have := List.of_mem_filter ha
        simpa [hp] using this
      have hb' : ranking_key b = t := by
        have := List.of_mem_filter hb
        simpa [hp] using this
      simp [vrank_le, ha', hb']
    have hsub : List.Sublist (l.filter p) (rank_vendors l) :=
      List.sublist_mergeSort vrank_le_trans vrank_le_total hpair (List.filter_sublist l)
    have hsub2 : List.Sublist (l.filter p) ((rank_vendors l).filter p) := by
      have := hsub.filter p
      rwa [List.filter_filter, show (fun a => p a && p a) = p from funext fun a => Bool.and_self _]
        at this
    have hlen : ((rank_vendors l).filter p).length = (l.filter p).length :=
      ((List.mergeSort_perm l vrank_le).filter p).length_eq
    exact (hsub2.eq_of_length hlen.symm).symm

/-! ## `vendor_finder.py` — the agent loop -/

def TRADE_SERVICES : List String :=
  ["plumber", "electrician", "mechanic", "technician", "carpenter", "welder",
   "installer", "repair", "cleaner", "handyman", "maintenance"]

def VISUAL_SERVICES : List String :=
  ["cake", "bakery", "makeup", "photography", "fashion", "decor", "event",
   "catering", "florist"]

def classify_service (service : String) : String :=
  let s := lowerStr service
  if TRADE_SERVICES.any (fun w => strContains s w) then "trade"
  else if VISUAL_SERVICES.any (fun w => strContains s w) then "visual"
  else "general"

/-- The oracles `find_vendors` consults, indexed by the attempt number
where a reply can differ between rounds: `searchRaw n loc platform` is
the concatenated provider output feeding the attempt-`n` call of
`SearchEngine.search_vendors`, and `extractEnv n` the extractor's
external world during attempt `n`. -/
structure FinderEnv where
  searchRaw : Nat → String → String → List SearchHit
  extractEnv : Nat → ExtractorEnv
  reasoner : ReasonerEnv

/-- The loop state of one `find_vendors` call (its local variables
`attempt`, `current_platform`, `current_location`,
`current_min_confidence`, `final_reasoning`, `ranked_vendors`). -/
structure RefinementState where
  attempt : Nat
  current_platform : String
  current_location : String
  current_min_confidence : ℚ
  final_reasoning : List String
  ranked_vendors : List Vendor

structure AgentResult where
  vendors : List Vendor
  analysis : Analysis
  agent_reasoning : List String

/-- Lines 189-197: the dict returned after the loop exits without a
`STOP` decision (`break` or exhausted attempts). -/
def fallback_result (s : RefinementState) : AgentResult :=
  { vendors := s.ranked_vendors
    analysis :=
      { explanation := "Search completed but results were limited or low confidence."
        result_quality := "weak"
        clarifying_question := "Would you like to broaden the location or try another service?" }
    agent_reasoning := s.final_reasoning }

/-- Lines 108-126: the extraction loop over the top `max_results * 3`
hits — discard gate, confidence gate against the *effective* minimum
confidence, oracle vendor-intent gate, and the `max_results` cut-off.
`idx` is the position of the hit, indexing the `is_actual_vendor`
oracle. -/
def collect_enriched (env : FinderEnv) (attempt : Nat) (location : String)
    (effective_min_confidence : ℚ) (max_results : Nat) :
    Nat → List ScoredHit → List Vendor → List Vendor
  | _, [], acc => acc
  | idx, h :: rest, acc =>
    match extract_vendor_info (env.extractEnv attempt) h.hit location with
    | .discarded _ _ =>
      collect_enriched env attempt location effective_min_confidence max_results
        (idx + 1) rest acc
    | .vendor v =>
      if v.confidence_score < effective_min_confidence then
        collect_enriched env attempt location effective_min_confidence max_results
          (idx + 1) rest acc
      else if ¬ is_actual_vendor env.reasoner attempt idx then
        collect_enriched env attempt location effective_min_confidence max_results
          (idx + 1) rest acc
      else
        let acc' := acc ++ [v]
        if max_results ≤ acc'.length then acc'
        else
          collect_enriched env attempt location effective_min_confidence max_results
            (idx + 1) rest acc'

/-- Lines 171-186: the state mutation for a non-`STOP` decision (an
unrecognised action mutates nothing and loops). -/
def apply_decision (service_type : String) (action : String) (s : RefinementState) :
    RefinementState :=
  if action = "EXPAND_LOCATION" then
    { s with current_location := s.current_location ++ " nearby"
             final_reasoning := s.final_reasoning ++ ["Expanded search location."] }
  else if action = "TRY_ANOTHER_PLATFORM" then
    let p := if service_type = "visual" then "instagram"
      else if s.current_platform = "instagram" then "twitter" else "instagram"
    { s with current_platform := p
             final_reasoning := s.final_reasoning ++ [s!"Switched platform to {p}."] }
  else if action = "RELAX_CONFIDENCE" then
    { s with current_min_confidence := max (1/10) (s.current_min_confidence - 1/10)
             final_reasoning := s.final_reasoning ++ ["Relaxed confidence threshold."] }
  else s

/-- What one pass of the `while` body does: return from `find_vendors`
(`halt`, carrying the final value of the source's `attempt` counter),
raise an uncaught exception (`raised`: the `TypeError`/`AttributeError`
of an ill-typed re-rank reply at lines 138-144, or the
`KeyError`/`AttributeError` of a decide reply with no usable `action`
lookup at lines 164/172), or loop with a mutated state (`refined`). -/
inductive AttemptOutcome where
  | halt (result : AgentResult) (attempts : Nat)
  | raised
  | refined (s : RefinementState)

/-- Lines 138-144 on an arbitrary JSON id list: the filter
comprehension raises `TypeError` as soon as an entry is non-numeric;
otherwise the in-range entries survive; an empty survivor list keeps
the prior order; otherwise the indexing comprehension raises
`TypeError` if any survivor is a float, else it selects the candidates
(`getD` stands for the guarded `ranked_vendors[i]`, its default dead). -/
def apply_rerank_ids (ranked : List Vendor) (ids : List JsonId) :
    Except Unit (List Vendor) :=
  if ids.any (fun i => (json_id_cmp i).isNone) then .error ()
  else
    let valid := ids.filter (fun i =>
      match json_id_cmp i with
      | some q => decide (0 ≤ q ∧ q < (ranked.length : ℚ))
      | none => false)
    if valid ≠ [] then
      if valid.any (fun i => (json_id_index i).isNone) then .error ()
      else .ok ((valid.filterMap json_id_index).map (fun i => ranked.getD i.toNat default))
    else .ok ranked

/-- The whole re-rank consumption step of lines 138-147: `rerank.get`
raises `AttributeError` on a non-dict reply; otherwise the id list
(default `[]`) is applied and the reply's `reasoning` is passed on for
the log append. -/
def rerank_step (ranked : List Vendor) (rr : RerankJson) :
    Except Unit (List Vendor × Option String) :=
  match rr with
  | .nondict => .error ()
  | .rdict ids reasoning =>
    match apply_rerank_ids ranked (ids.getD []) with
    | .error e => .error e
    | .ok r => .ok (r, reasoning)

/-- A re-rank reply on which lines 138-147 cannot raise: a dict whose
id list (when the key is present) holds integers only. -/
def rerank_reply_well_typed : RerankJson → Prop
  | .rdict ids _ => ∀ x ∈ ids.getD [], ∃ i : ℤ, x = .jint i
  | .nondict => False

/-- An advisory re-rank oracle whose successful replies are all
well-typed. -/
def rerank_oracle_ok (env : ReasonerEnv) : Prop :=
  ∀ (n : Nat) (r : RerankJson), env.rerankOracle n = .ok r → rerank_reply_well_typed r

/-- Lines 146-147: append the re-rank reply's `reasoning` to the log
when truthy (`note` is `none` when the re-rank branch did not run). -/
def rerank_log (s2 : RefinementState) (note : Option String) : RefinementState :=
  match note with
  | some r =>
    if r ≠ "" then { s2 with final_reasoning := s2.final_reasoning ++ [r] } else s2
  | none => s2

/-- The log entry `rerank_log` appends. -/
def rerank_note : Option String → List String
  | some r => if r ≠ "" then [r] else []
  | none => []

theorem rerank_log_eq (s : RefinementState) (note : Option String) :
    rerank_log s note
      = { s with final_reasoning := s.final_reasoning ++ rerank_note note } := by
  unfold rerank_log rerank_note
  cases note with
  | none => simp
  | some r =>
    dsimp only
    split <;> simp

/-- Lines 89-186: the body of one `while` pass from the search call on,
as a function of the state `s2` as it stands after the `attempt += 1`
and visual platform-override lines.  A `break` is a `halt` with the
fallback dict, since both `break` sites fall through to the fallback
return.  The re-rank reply is bound unconditionally (the embedding is
pure, so binding equals Python's call-only-when-needed), but is read
only when more than one candidate survives, as in the source. -/
def attempt_rest (env : FinderEnv) (service service_type : String)
    (effective_min_confidence : ℚ) (max_results : Nat) (s2 : RefinementState) :
    AttemptOutcome :=
  let search_results := search_vendors service s2.current_location s2.current_platform
      (env.searchRaw s2.attempt s2.current_location s2.current_platform)
  if search_results = [] then .halt (fallback_result s2) s2.attempt
  else
    let enriched := collect_enriched env s2.attempt s2.current_location
        effective_min_confidence max_results 0 (search_results.take (max_results * 3)) []
    if enriched = [] then .halt (fallback_result s2) s2.attempt
    else
      let ranked0 := rank_vendors enriched
      let rr := rerank_vendors env.reasoner s2.attempt ranked0
      match (if 1 < ranked0.length then rerank_step ranked0 rr else .ok (ranked0, none)) with
      | .error _ => .raised
      | .ok (ranked, note) =>
        let s3 := rerank_log s2 note
        let s4 := { s3 with ranked_vendors := ranked }
        let analysis := analyze_results env.reasoner s4.attempt service s4.current_location
            s4.ranked_vendors
        let decision := decide_next_search env.reasoner s4.attempt service s4.current_location
            s4.current_platform s4.ranked_vendors
        match decision with
        | some a =>
          if a = "STOP" then
            .halt { vendors := s4.ranked_vendors, analysis := analysis
                    agent_reasoning := s4.final_reasoning } s4.attempt
          else .refined (apply_decision service_type a s4)
        | none => .raised

def attempt_body (env : FinderEnv) (service service_type : String)
    (effective_min_confidence : ℚ) (max_results : Nat) (s : RefinementState) :
    AttemptOutcome :=
  let s1 := { s with attempt := s.attempt + 1 }
  let s2 := if service_type = "visual" then { s1 with current_platform := "instagram" } else s1
  attempt_rest env service service_type effective_min_confidence max_results s2

/-- The `while attempt < max_attempts` loop, fuelled by the number of
remaining iterations (`max_attempts - attempt`); running out of fuel is
the loop condition failing, which returns the fallback dict. -/
def find_vendors_loop (env : FinderEnv) (service service_type : String)
    (effective_min_confidence : ℚ) (max_results : Nat) :
    Nat → RefinementState → Except Unit (AgentResult × Nat)
  | 0, s => .ok (fallback_result s, s.attempt)
  | fuel + 1, s =>
    match attempt_body env service service_type effective_min_confidence max_results s with
    | .halt r n => .ok (r, n)
    | .raised => .error ()
    | .refined s' =>
      find_vendors_loop env service service_type effective_min_confidence max_results fuel s'

/-- `VendorFinder.find_vendors`, instrumented with the final value of
the source's `attempt` counter; `.error ()` is an uncaught exception:
the `KeyError` from `decision["action"]`, or the
`TypeError`/`AttributeError` from consuming an ill-typed re-rank
reply. -/
def find_vendors_run (env : FinderEnv) (service location platform : String)
    (max_results : Nat) (min_confidence : ℚ) : Except Unit (AgentResult × Nat) :=
  let service_type := classify_service service
  let effective_min_confidence : ℚ :=
    if service_type = "trade" then 2/10 else min_confidence
  find_vendors_loop env service service_type effective_min_confidence max_results 2
    { attempt := 0, current_platform := platform, current_location := location,
      current_min_confidence := min_confidence, final_reasoning := [],
      ranked_vendors := [] }

def find_vendors (env : FinderEnv) (service location platform : String)
    (max_results : Nat) (min_confidence : ℚ) : Except Unit AgentResult :=
  (find_vendors_run env service location platform max_results min_confidence).map Prod.fst

/-! ### Lemmas about the loop (claims C2, C10) -/

/-- On an integer-typed reply the JSON re-rank semantics coincides with
`apply_rerank`, the integer lens of claim C5. -/
theorem apply_rerank_ids_int (ranked : List Vendor) (ids : List ℤ) :
    apply_rerank_ids ranked (ids.map JsonId.jint)
      = .ok (apply_rerank ranked { ordered_vendor_ids := ids, reasoning := none }) := by
  have hfun : ((fun i => match json_id_cmp i with
        | some q => decide (0 ≤ q ∧ q < (ranked.length : ℚ))
        | none => false) ∘ JsonId.jint)
      = (fun i : ℤ => decide (0 ≤ i ∧ i < (ranked.length : ℤ))) := by
    funext i
    simp only [Function.comp_apply, json_id_cmp]
    rw [decide_eq_decide]
    constructor
    · rintro ⟨h1, h2⟩
      exact ⟨by exact_mod_cast h1, by exact_mod_cast h2⟩
    · rintro ⟨h1, h2⟩
      exact ⟨by exact_mod_cast h1, by exact_mod_cast h2⟩
  have hkey : (ids.map JsonId.jint).filter (fun i =>
        match json_id_cmp i with
        | some q => decide (0 ≤ q ∧ q < (ranked.length : ℚ))
        | none => false)
      = (ids.filter (fun i => decide (0 ≤ i ∧ i < (ranked.length : ℤ)))).map JsonId.jint := by
    rw [List.filter_map, hfun]
  have hany : ((ids.map JsonId.jint).any fun i => (json_id_cmp i).isNone) = false := by
    simp [List.any_map, json_id_cmp, Function.comp]
  have hidx : ∀ (l : List ℤ),
      ((l.map JsonId.jint).any fun i => (json_id_index i).isNone) = false := by
    intro l
    simp [List.any_map, json_id_index, Function.comp]
  simp only [apply_rerank_ids, apply_rerank, hkey, hany, hidx, Bool.false_eq_true,
    if_false]
  by_cases hne : ids.filter (fun i => decide (0 ≤ i ∧ i < (ranked.length : ℤ))) = []
  · rw [hne]
    simp
  · rw [if_pos (by simpa using hne), if_pos hne, List.filterMap_map]
    have hcomp : (json_id_index ∘ JsonId.jint) = (some : ℤ → Option ℤ) := by
      funext i
      rfl
    rw [hcomp, List.filterMap_some]

theorem apply_rerank_ids_ok {ranked : List Vendor} {ids : List JsonId}
    (h : ∀ x ∈ ids, ∃ i : ℤ, x = .jint i) :
    ∃ r, apply_rerank_ids ranked ids = .ok r := by
  have hany : (ids.any fun i => (json_id_cmp i).isNone) = false := by
    rw [List.any_eq_false]
    intro x hx
    obtain ⟨i, rfl⟩ := h x hx
    simp [json_id_cmp]
  have hidx : ((ids.filter fun i =>
      match json_id_cmp i with
      | some q => decide (0 ≤ q ∧ q < (ranked.length : ℚ))
      | none => false).any fun i => (json_id_index i).isNone) = false := by
    rw [List.any_eq_false]
    intro x hx
    obtain ⟨i, rfl⟩ := h x (List.mem_of_mem_filter hx)
    simp [json_id_index]
  simp only [apply_rerank_ids, hany, hidx, Bool.false_eq_true, if_false]
  split
  · exact ⟨_, rfl⟩
  · exact ⟨ranked, rfl⟩

theorem rerank_step_ok {ranked : List Vendor} {rr : RerankJson}
    (h : rerank_reply_well_typed rr) :
    ∃ out, rerank_step ranked rr = .ok out := by
  cases rr with
  | nondict => exact absurd h (by simp [rerank_reply_well_typed])
  | rdict ids reasoning =>
    obtain ⟨r, hr⟩ := @apply_rerank_ids_ok ranked (ids.getD []) h
    exact ⟨(r, reasoning), by simp [rerank_step, hr]⟩

theorem rerank_vendors_wt {env : ReasonerEnv} (h : rerank_oracle_ok env)
    (attempt : Nat) (vendors : List Vendor) :
    rerank_reply_well_typed (rerank_vendors env attempt vendors) := by
  unfold rerank_vendors
  split
  · intro x hx
    simp only [Option.getD_some] at hx
    rcases List.mem_map.mp hx with ⟨n, -, rfl⟩
    exact ⟨Int.ofNat n, rfl⟩
  · cases ho : env.rerankOracle attempt with
    | error e =>
      intro x hx
      simp only [Option.getD_some] at hx
      rcases List.mem_map.mp hx with ⟨n, -, rfl⟩
      exact ⟨Int.ofNat n, rfl⟩
    | ok r => exact h attempt r ho

/-- The ill-typed re-rank replies the source raises on are live in the
model: a string id (`{"ordered_vendor_ids": ["0"]}`) dies at the range
comparison, an in-range float id (`[1.0]`) at the indexing, and a
non-dict reply at `rerank.get`. -/
theorem rerank_step_ill_typed (v0 v1 : Vendor) :
    rerank_step [v0, v1] (.rdict (some [.jother]) none) = .error ()
      ∧ rerank_step [v0, v1] (.rdict (some [.jfloat 1]) none) = .error ()
      ∧ rerank_step [v0, v1] .nondict = .error () := by
  refine ⟨?_, ?_, rfl⟩
  · simp [rerank_step, apply_rerank_ids, json_id_cmp]
  · have h1 : (0:ℚ) ≤ 1 ∧ (1:ℚ) < (([v0, v1] : List Vendor).length : ℚ) := by
      constructor <;> norm_num
    simp [rerank_step, apply_rerank_ids, json_id_cmp, json_id_index, h1]

theorem apply_decision_attempt (st a : String) (s : RefinementState) :
    (apply_decision st a s).attempt = s.attempt := by
  unfold apply_decision
  split_ifs <;> rfl

theorem decide_next_search_ne_none {env : ReasonerEnv} {attempt : Nat}
    {service location platform : String} {vendors : List Vendor}
    (h : env.decideOracle attempt ≠ .ok none) :
    decide_next_search env attempt service location platform vendors ≠ none := by
  unfold decide_next_search
  split
  · simp
  · split
    · simp
    · cases ho : env.decideOracle attempt with
      | error e => simp
      | ok a =>
        cases a with
        | none => exact absurd ho h
        | some x => simp

/-- What counts as a well-formed outcome of one pass started from
`attempt` counter `base - 1`: a return or a refinement carrying counter
`base`, never the `KeyError`. -/
def outcome_att (base : Nat) : AttemptOutcome → Prop
  | .halt _ n => n = base
  | .raised => False
  | .refined s' => s'.attempt = base

theorem attempt_rest_att (env : FinderEnv) (service service_type : String)
    (emc : ℚ) (mr : Nat) (t : RefinementState)
    (h : env.reasoner.decideOracle t.attempt ≠ .ok none)
    (hrr : rerank_oracle_ok env.reasoner) :
    outcome_att t.attempt (attempt_rest env service service_type emc mr t) := by
  simp only [attempt_rest, rerank_log_eq]
  split
  · simp [outcome_att]
  · split
    · simp [outcome_att]
    · split
      · rename_i a heq
        exfalso
        split at heq
        · obtain ⟨out, hout⟩ := rerank_step_ok (rerank_vendors_wt hrr t.attempt _)
          rw [hout] at heq
          exact Except.noConfusion heq
        · exact Except.noConfusion heq
      · rename_i p heq
        split
        · rename_i a heq2
          split
          · simp [outcome_att]
          · simp [outcome_att, apply_decision_attempt]
        · rename_i heq2
          exact absurd heq2 (decide_next_search_ne_none h)

theorem attempt_body_att (env : FinderEnv) (service service_type : String)
    (emc : ℚ) (mr : Nat) (s : RefinementState)
    (h : env.reasoner.decideOracle (s.attempt + 1) ≠ .ok none)
    (hrr : rerank_oracle_ok env.reasoner) :
    outcome_att (s.attempt + 1) (attempt_body env service service_type emc mr s) := by
  by_cases hv : service_type = "visual"
  · simp only [attempt_body, if_pos hv]
    exact attempt_rest_att env service service_type emc mr
      { s with attempt := s.attempt + 1, current_platform := "instagram" } h hrr
  · simp only [attempt_body, if_neg hv]
    exact attempt_rest_att env service service_type emc mr
      { s with attempt := s.attempt + 1 } h hrr

theorem find_vendors_loop_ok (env : FinderEnv) (service service_type : String)
    (emc : ℚ) (mr : Nat)
    (h : ∀ n, env.reasoner.decideOracle n ≠ .ok none)
    (hrr : rerank_oracle_ok env.reasoner) :
    ∀ (fuel : Nat) (s : RefinementState),
      ∃ r, find_vendors_loop env service service_type emc mr fuel s = .ok r
        ∧ r.2 ≤ s.attempt + fuel := by
  intro fuel
  induction fuel with
  | zero =>
    intro s
    exact ⟨(fallback_result s, s.attempt), rfl, by omega⟩
  | succ n ih =>
    intro s
    have hb := attempt_body_att env service service_type emc mr s (h _) hrr
    cases hab : attempt_body env service service_type emc mr s with
    | halt r k =>
      rw [hab] at hb
      have hk : k = s.attempt + 1 := hb
      refine ⟨(r, k), ?_, ?_⟩
      · simp [find_vendors_loop, hab]
      · simp only []
        omega
    | raised =>
      rw [hab] at hb
      exact hb.elim
    | refined s' =>
      rw [hab] at hb
      have hs' : s'.attempt = s.attempt + 1 := hb
      obtain ⟨r, hr, hle⟩ := ih s'
      refine ⟨r, ?_, ?_⟩
      · simp [find_vendors_loop, hab, hr]
      · rw [hs'] at hle
        omega

/-! ## Claim C2 — loop termination and exception behaviour -/

def c2_env : FinderEnv :=
  { searchRaw := fun _ _ _ => [ext_hit0]
    extractEnv := fun _ => ext_env0
    reasoner :=
      { client := true, decideOracle := fun _ => .ok none
        rerankOracle := fun _ => .error (), isVendorOracle := fun _ _ => .ok true
        analyzeOracle := fun _ => .error () } }

/-- **C2, counterexample.** Not every advisory-oracle response sequence
lets `find_vendors` return: a reply whose parsed JSON carries no
`"action"` key (for instance any non-JSON oracle output, which
`_safe_json` turns into a dict without that key) survives the
`decision.get("action") == "STOP"` test and then hits
`decision["action"]`, raising `KeyError` out of `find_vendors`. -/
theorem C2_loop_counterexample :
    find_vendors_run c2_env "zzz" "Lagos" "instagram" 10 (3/10) = .error () := by
  have hlt : ¬ (ext_vendor0.confidence_score < 3/10) := by norm_num [ext_vendor0]
  have htake : List.take (10 * 3) [(⟨ext_hit0,
      relevance_score "zzz" "Lagos" "instagram" ext_hit0⟩ : ScoredHit)]
      = [⟨ext_hit0, relevance_score "zzz" "Lagos" "instagram" ext_hit0⟩] :=
    List.take_of_length_le (by simp)
  simp +decide [find_vendors_run, classify_service, find_vendors_loop, attempt_body,
    attempt_rest, search_vendors, dedupHits, htake, collect_enriched, ext_eval0, hlt,
    is_actual_vendor, rank_vendors, decide_next_search, c2_env]

/-- **C2, amended.** For every oracle-response sequence in which each
`decide_next_search` reply carries an `"action"` key and each
`rerank_vendors` reply is a dict whose `"ordered_vendor_ids"` (when
present) is a list of integers, `find_vendors` returns without raising
and its `attempt` counter never exceeds 2 (`maxAttempts`); and
exhausting the attempt budget returns the fallback `AgentResult` for
the current state rather than looping further.  Both restrictions are
needed: dropping the first lets `decision["action"]` raise `KeyError`
(the counterexample), and dropping the second lets an ill-typed re-rank
reply raise `TypeError`/`AttributeError` inside the re-rank
consumption (`rerank_step_ill_typed`). -/
theorem C2_loop_amended :
    (∀ (env : FinderEnv) (service location platform : String)
        (max_results : Nat) (min_confidence : ℚ),
        (∀ n, env.reasoner.decideOracle n ≠ .ok none) →
        rerank_oracle_ok env.reasoner →
        ∃ r, find_vendors_run env service location platform max_results min_confidence
              = .ok r
          ∧ r.2 ≤ 2)
      ∧ (∀ (env : FinderEnv) (service service_type : String) (emc : ℚ)
          (max_results : Nat) (s : RefinementState),
          find_vendors_loop env service service_type emc max_results 0 s
            = .ok (fallback_result s, s.attempt)) := by
  constructor
  · intro env service location platform mr mc h hrr
    obtain ⟨r, hr, hle⟩ := find_vendors_loop_ok env service (classify_service service)
      (if classify_service service = "trade" then 2/10 else mc) mr h hrr 2
      { attempt := 0, current_platform := platform, current_location := location,
        current_min_confidence := mc, final_reasoning := [], ranked_vendors := [] }
    exact ⟨r, hr, by simpa using hle⟩
  · intro env service service_type emc mr s
    rfl

def c2w_env : FinderEnv :=
  { searchRaw := fun _ _ _ => []
    extractEnv := fun _ => ext_env0
    reasoner := c3_env_on }

/-- Witness for C2 amended: an oracle that always answers the non-STOP
action `EXPAND_LOCATION` still gets an `.ok` result within 2 rounds. -/
theorem C2_loop_amended_witness :
    ∃ r, find_vendors_run c2w_env "plumber" "Abuja" "twitter" 5 (3/10) = .ok r
      ∧ r.2 ≤ 2 :=
  C2_loop_amended.1 c2w_env "plumber" "Abuja" "twitter" 5 (3/10)
    (fun n => by simp [c2w_env, c3_env_on])
    (fun n r hr => absurd hr (by simp [c2w_env, c3_env_on]))

/-! ## Claim C10 — `RELAX_CONFIDENCE` is a no-op for filtering -/

/-- Overwrite the loop state's `current_min_confidence` only. -/
def set_min (s : RefinementState) (c : ℚ) : RefinementState :=
  { s with current_min_confidence := c }

/-- Two loop states that agree on everything except
`current_min_confidence`. -/
def eq_except_min (s t : RefinementState) : Prop :=
  s.attempt = t.attempt ∧ s.current_platform = t.current_platform
    ∧ s.current_location = t.current_location
    ∧ s.final_reasoning = t.final_reasoning
    ∧ s.ranked_vendors = t.ranked_vendors

/-- Pass outcomes that differ at most in the refined state's
`current_min_confidence`. -/
def attemptRel : AttemptOutcome → AttemptOutcome → Prop
  | .halt r n, .halt r' n' => r = r' ∧ n = n'
  | .raised, .raised => True
  | .refined s', .refined t' => eq_except_min s' t'
  | _, _ => False

theorem apply_decision_rel (st a : String) {s t : RefinementState}
    (h : eq_except_min s t) :
    eq_except_min (apply_decision st a s) (apply_decision st a t) := by
  obtain ⟨sa, sp, sl, sm, sr, sv⟩ := s
  obtain ⟨ta, tp, tl, tm, tr, tv⟩ := t
  obtain ⟨h1, h2, h3, h4, h5⟩ := h
  dsimp only at h1 h2 h3 h4 h5
  subst h1; subst h2; subst h3; subst h4; subst h5
  unfold apply_decision eq_except_min
  split_ifs <;> simp_all

theorem attempt_rest_rel (env : FinderEnv) (service service_type : String)
    (emc : ℚ) (mr : Nat) {s t : RefinementState} (h : eq_except_min s t) :
    attemptRel (attempt_rest env service service_type emc mr s)
      (attempt_rest env service service_type emc mr t) := by
  obtain ⟨sa, sp, sl, sm, sr, sv⟩ := s
  obtain ⟨ta, tp, tl, tm, tr, tv⟩ := t
  obtain ⟨h1, h2, h3, h4, h5⟩ := h
  dsimp only at h1 h2 h3 h4 h5
  subst h1; subst h2; subst h3; subst h4; subst h5
  simp only [attempt_rest, rerank_log_eq]
  split
  · simp [attemptRel, fallback_result]
  · split
    · simp [attemptRel, fallback_result]
    · split
      · simp [attemptRel]
      · rename_i p heq
        split
        · rename_i a heq2
          split
          · simp [attemptRel]
          · exact apply_decision_rel service_type a (by simp [eq_except_min])
        · simp [attemptRel]

theorem attempt_body_rel (env : FinderEnv) (service service_type : String)
    (emc : ℚ) (mr : Nat) {s t : RefinementState} (h : eq_except_min s t) :
    attemptRel (attempt_body env service service_type emc mr s)
      (attempt_body env service service_type emc mr t) := by
  obtain ⟨h1, h2, h3, h4, h5⟩ := h
  by_cases hv : service_type = "visual"
  · simp only [attempt_body, if_pos hv]
    exact attempt_rest_rel env service service_type emc mr
      (by simp [eq_except_min, h1, h3, h4, h5])
  · simp only [attempt_body, if_neg hv]
    exact attempt_rest_rel env service service_type emc mr
      (by simp [eq_except_min, h1, h2, h3, h4, h5])

theorem find_vendors_loop_rel (env : FinderEnv) (service service_type : String)
    (emc : ℚ) (mr : Nat) :
    ∀ (fuel : Nat) {s t : RefinementState}, eq_except_min s t →
      find_vendors_loop env service service_type emc mr fuel s
        = find_vendors_loop env service service_type emc mr fuel t := by
  intro fuel
  induction fuel with
  | zero =>
    intro s t h
    obtain ⟨h1, h2, h3, h4, h5⟩ := h
    simp [find_vendors_loop, fallback_result, h1, h4, h5]
  | succ n ih =>
    intro s t h
    have hrel := attempt_body_rel env service service_type emc mr h
    rw [find_vendors_loop, find_vendors_loop]
    cases h1 : attempt_body env service service_type emc mr s with
    | halt r k =>
      cases h2 : attempt_body env service service_type emc mr t with
      | halt r' k' =>
        rw [h1, h2] at hrel
        obtain ⟨hr, hk⟩ := hrel
        rw [hr, hk]
      | raised => rw [h1, h2] at hrel; exact hrel.elim
      | refined t' => rw [h1, h2] at hrel; exact hrel.elim
    | raised =>
      cases h2 : attempt_body env service service_type emc mr t with
      | halt r' k' => rw [h1, h2] at hrel; exact hrel.elim
      | raised => rfl
      | refined t' => rw [h1, h2] at hrel; exact hrel.elim
    | refined s' =>
      cases h2 : attempt_body env service service_type emc mr t with
      | halt r' k' => rw [h1, h2] at hrel; exact hrel.elim
      | raised => rw [h1, h2] at hrel; exact hrel.elim
      | refined t' =>
        rw [h1, h2] at hrel
        exact ih hrel

/-- **C10.** The confidence threshold applied at the filtering gate is
the `effective_min_confidence` parameter, fixed before the first attempt
and threaded unchanged through `find_vendors_loop`; a `RELAX_CONFIDENCE`
decision mutates only the separate `current_min_confidence` state field
(plus the reasoning log), and the loop's entire result — in particular
the set of candidates accepted by the confidence gate — is identical for
any two values of `current_min_confidence`. -/
theorem C10_relax_frame :
    (∀ (service_type : String) (s : RefinementState),
        (apply_decision service_type "RELAX_CONFIDENCE" s).attempt = s.attempt
          ∧ (apply_decision service_type "RELAX_CONFIDENCE" s).current_platform
              = s.current_platform
          ∧ (apply_decision service_type "RELAX_CONFIDENCE" s).current_location
              = s.current_location
          ∧ (apply_decision service_type "RELAX_CONFIDENCE" s).ranked_vendors
              = s.ranked_vendors
          ∧ (apply_decision service_type "RELAX_CONFIDENCE" s).current_min_confidence
              = max (1/10) (s.current_min_confidence - 1/10))
      ∧ (∀ (env : FinderEnv) (service service_type : String) (emc : ℚ)
          (max_results fuel : Nat) (s : RefinementState) (c c' : ℚ),
          find_vendors_loop env service service_type emc max_results fuel (set_min s c)
            = find_vendors_loop env service service_type emc max_results fuel
                (set_min s c')) := by
  constructor
  · intro service_type s
    unfold apply_decision
    rw [if_neg (by decide), if_neg (by decide), if_pos rfl]
    exact ⟨rfl, rfl, rfl, rfl, rfl⟩
  · intro env service service_type emc mr fuel s c c'
    exact find_vendors_loop_rel env service service_type emc mr fuel
      (by simp [eq_except_min, set_min])
